import Mathlib

/-!
Verification of the `led-live` LED-panel display core against its
natural-language specification.

The definitions below are a shallow embedding of the Python source:

* `src/adapters/ipixel/protocol.py` — packet encoders (`create_png_packet`,
  `switch_endian`, the windowed GIF transfer `_send_gif_windowed`), the
  MTU-bound chunker (`write_cmd_single`), and the multi-panel broadcast
  helper (`write_cmd` / `MultiPanelClient`);
* `src/adapters/ipixel/adapter.py` — the adapter facade (`get_info`);
* `src/display_manager.py` — the per-tick scheduler mode selection.

Byte buffers are `List Nat` with every element kept below 256 by
construction (each stored byte is produced by `&&& 0xFF` or `% 256`,
exactly as the source masks them).  Machine-integer wrap-around is made
explicit with `%`/`&&&` at the widths the source uses.
-/

namespace LedLive

/-! MTU-bound chunker

Embeds the chunking loop `for i in range(0, len(data), chunk_size)` used by
`write_cmd_single` and `write_cmd` in `src/adapters/ipixel/protocol.py`.
A step of `0` is invalid in Python (`range` raises); we return `[]` in that
never-used case.
-/

def chunks (m : Nat) : List α → List (List α)
  | [] => []
  | a :: t =>
    if m = 0 then []
    else ((a :: t).take m) :: chunks m ((a :: t).drop m)
termination_by l => l.length
decreasing_by
  simp only [List.length_drop, List.length_cons]
  omega

/-- Embeds `write_cmd_single(client, data)` from `src/adapters/ipixel/protocol.py`:
the chunk size is queried from the BLE characteristic (modelled as
`mtuQuery`); on query failure (`mtuQuery = none`) it falls back to 512.
The observable behaviour is the ordered list of chunks written. -/
def write_cmd_single (mtuQuery : Option Nat) (data : List Nat) : List (List Nat) :=
  chunks (mtuQuery.getD 512) data

/-! `switch_endian` (hex-pair reversal)

`switch_endian` in `src/adapters/ipixel/protocol.py` rejects odd-length
hex strings, then splits the string into two-character pairs, reverses the
pair list and concatenates.  The pair split `[s[i:i+2] for i in
range(0, len(s), 2)]` is exactly `chunks 2 s`. -/

def switch_endian (s : List Char) : Option (List Char) :=
  if s.length % 2 ≠ 0 then none
  else some ((chunks 2 s).reverse.flatten)

/-! Still-image packet (`create_png_packet`)

Embeds `create_png_packet` from `src/adapters/ipixel/protocol.py`
(duplicated verbatim in `src/panel_core.py`).  The PNG encoding itself is
performed by the external PIL library; the encoder treats the encoded
payload as opaque bytes, so the embedding takes the payload byte buffer as
input.  The CRC-32 is `zlib.crc32`, i.e. the standard reflected CRC-32
with polynomial `0xEDB88320`, initial value and final xor `0xFFFFFFFF`. -/

def crc32_bit (r : Nat) : Nat :=
  if r % 2 = 1 then (r / 2) ^^^ 0xEDB88320 else r / 2

def crc32_byte (r b : Nat) : Nat :=
  crc32_bit (crc32_bit (crc32_bit (crc32_bit
    (crc32_bit (crc32_bit (crc32_bit (crc32_bit (r ^^^ b))))))))

def crc32 (data : List Nat) : Nat :=
  (data.foldl crc32_byte 0xFFFFFFFF) ^^^ 0xFFFFFFFF

/-- Embeds `create_png_packet(image)`: 15-byte header followed by the PNG payload.
Field bytes are produced exactly as in the source (`& 0xFF` of shifted
values, fixed command/reserved/flag bytes). -/
def create_png_packet (png_data : List Nat) : List Nat :=
  let crc := crc32 png_data &&& 0xFFFFFFFF
  let png_len := png_data.length
  let total_len := png_len + 15
  [total_len &&& 0xFF,
   (total_len >>> 8) &&& 0xFF,
   0x02, 0x00,
   0x00,
   png_len &&& 0xFF,
   (png_len >>> 8) &&& 0xFF,
   (png_len >>> 16) &&& 0xFF,
   (png_len >>> 24) &&& 0xFF,
   crc &&& 0xFF,
   (crc >>> 8) &&& 0xFF,
   (crc >>> 16) &&& 0xFF,
   (crc >>> 24) &&& 0xFF,
   0x00, 0x2F] ++ png_data

/-- Decodes a little-endian byte list (least significant byte first),
used to read back the multi-byte header fields. -/
def decodeLE : List Nat → Nat
  | [] => 0
  | b :: t => b + 256 * decodeLE t

/-! Windowed GIF transfer (`_send_gif_windowed`)

Embeds the window loop of `_send_gif_windowed` in
`src/adapters/ipixel/protocol.py`.  The parsed animation byte stream
(`parsed["gif_bytes"]`) is cut into windows of `window_size` bytes
(default 12 KiB); window 0 gets option byte `0x00` and serial byte `0x01`,
every later window option `0x02` and serial `0x65`.  The frame of each window is
`[0x03, 0x00, option] ++ size_bytes ++ crc_bytes ++ [0x02, serial] ++
payload`. -/

structure GifWindow where
  option : Nat
  serial : Nat
  payload : List Nat
deriving Repr, DecidableEq

def gifWindows (windowSize : Nat) : List Nat → Nat → List GifWindow
  | [], _ => []
  | a :: t, idx =>
    if windowSize = 0 then []
    else
      { option := if idx = 0 then 0x00 else 0x02,
        serial := if idx = 0 then 0x01 else 0x65,
        payload := (a :: t).take windowSize } ::
      gifWindows windowSize ((a :: t).drop windowSize) (idx + 1)
termination_by l _ => l.length
decreasing_by
  simp only [List.length_drop, List.length_cons]
  omega

/-- Frame assembled for one window: header
`[0x03, 0x00, option] ++ size_bytes ++ crc_bytes ++ [0x02, serial]`
followed by the payload slice of the window. -/
def windowFrame (sizeBytes crcBytes : List Nat) (w : GifWindow) : List Nat :=
  [0x03, 0x00, w.option] ++ sizeBytes ++ crcBytes ++ [0x02, w.serial] ++ w.payload

/-- Embeds big-endian `int.to_bytes(length, "big")`: most significant byte first;
Python raises `OverflowError` when the value does not fit, modelled as
`none`. -/
def int_to_bytes_be (length v : Nat) : Option (List Nat) :=
  if v < 256 ^ length then some (beBytes length v) else none
where
  beBytes : Nat → Nat → List Nat
    | 0, _ => []
    | n + 1, v => beBytes n (v / 256) ++ [v % 256]

/-- Embeds the fallback branch of the prefix computation in
`_send_gif_windowed`: `total = len(frame) + 2; prefix =
total.to_bytes(2, "big")`. -/
def fallback_length_bytes (frame : List Nat) : Option (List Nat) :=
  int_to_bytes_be 2 (frame.length + 2)

/-! Multi-panel broadcast (`write_cmd` with a `MultiPanelClient`)

Embeds the `isinstance(client, MultiPanelClient)` branch of `write_cmd` in
`src/adapters/ipixel/protocol.py`, used by the broadcast commands
(`led_on`, `led_off`, `clear_screen_completely`, `init_panels`).  The
source writes the chunked data to `client.top_client`
(`panel_clients[0]`) and then to `client.bottom_client`
(`panel_clients[1]`); no other panel is ever written.  `bottom_client` is
only assigned when `panel_count >= 2`, so for a one-panel group the
bottom-panel write loop raises `AttributeError` on its first iteration
(the chunk-size lookup just above it is guarded by a bare `except`, the
write loop is not).  The result is the ordered list of
`(panel index, chunk)` writes performed, paired with `true` when the call
raises. -/

def write_cmd_multi (panelCount : Nat) (mtuTop mtuBottom : Option Nat)
    (data : List Nat) : List (Nat × List Nat) × Bool :=
  let topWrites := (chunks (mtuTop.getD 512) data).map (fun c => (0, c))
  if 2 ≤ panelCount then
    (topWrites ++ (chunks (mtuBottom.getD 512) data).map (fun c => (1, c)), false)
  else if data.isEmpty then (topWrites, false)
  else (topWrites, true)

/-! Panel-targeted PNG upload (`upload_png`)

Embeds `upload_png` from `src/adapters/ipixel/protocol.py`.  Images are
modelled as a size plus a pixel function (RGB triple per coordinate);
`crop (l, t, r, b)` follows the PIL semantics for in-bounds boxes: the
result is `(r - l) × (b - t)` with pixel `(x, y)` taken from `(l + x,
t + y)` of the source. -/

structure Img where
  w : Nat
  h : Nat
  pix : Nat → Nat → Nat × Nat × Nat

theorem Img.ext {a b : Img} (hw : a.w = b.w) (hh : a.h = b.h)
    (hp : ∀ x y, a.pix x y = b.pix x y) : a = b := by
  cases a; cases b
  simp only [Img.mk.injEq]
  exact ⟨hw, hh, funext fun x => funext fun y => hp x y⟩

def Img.crop (img : Img) (l t r b : Nat) : Img :=
  { w := r - l, h := b - t, pix := fun x y => img.pix (l + x) (t + y) }

/-- Observable write of `upload_png`: the "stop drawing" prepare
command (`[0x05, 0x00, 0x04, 0x01, 0x00]`) to a panel, or a PNG packet of
an image to a panel. -/
inductive Send where
  | prepare : Nat → Send
  | image : Nat → Img → Send

/-- Embeds `_normalize_panel_indices(panels, total_panels)`: `none`/`[]` means
all panels; otherwise every index must be in range, else `ValueError`. -/
def normalize_panel_indices (panels : Option (List Nat)) (total : Nat) :
    Except String (List Nat) :=
  match panels with
  | none => .ok (List.range total)
  | some [] => .ok (List.range total)
  | some ps =>
    if ps.all (fun p => p < total) then .ok ps
    else .error "Panel index out of range"

/-- Embeds `upload_png(client, image, clear_first=False, panels)`: when the image
height equals `PANEL_HEIGHT * panel_count` and more than one panel is
targeted, each target panel `i` receives the horizontal band
`image.crop((0, i*PANEL_HEIGHT, PANEL_WIDTH, (i+1)*PANEL_HEIGHT))`;
otherwise every target panel receives the image unchanged.  Every send is
preceded by the "stop drawing" prepare command on the channel of the same
panel. -/
def upload_png (panelW panelH panelCount : Nat) (img : Img)
    (panels : Option (List Nat)) : Except String (List Send) := do
  let target ← normalize_panel_indices panels panelCount
  let totalH := panelH * panelCount
  if img.h = totalH ∧ 1 < target.length then
    .ok ((target.map fun i =>
      [Send.prepare i,
       Send.image i (img.crop 0 (i * panelH) panelW ((i + 1) * panelH))]).flatten)
  else
    .ok ((target.map fun i => [Send.prepare i, Send.image i img]).flatten)

/-! Scheduler tick: target-mode selection

Embeds the per-tick target-mode computation of `main` in
`src/display_manager.py`.  A game is live when its `state` is
`"inProgress"` or `"in"`; sports has priority on a tick iff
`DISPLAY_SPORTS_PRIORITY` is set, `"sports"` is among the configured cycle
modes and a live game was detected.  Only in the non-priority branch does
the cycle timer advance the cycle index. -/

def should_show_sports (gameStates : List String) : Bool :=
  gameStates.any (fun s => s = "inProgress" || s = "in")

/-- Result of the target selection of one tick: the chosen mode, the new cycle
index and the new time-since-switch value (0 when the timer was reset). -/
structure TickChoice where
  target : String
  cycleIndex : Nat
  timeSinceSwitch : Nat
deriving Repr, DecidableEq

def chooseTarget (priorityEnabled : Bool) (cycleModes : List String)
    (gameStates : List String) (timeSinceSwitch cycleSeconds cycleIndex : Nat) :
    TickChoice :=
  let shouldCheckSports := cycleModes.contains "sports" && priorityEnabled
  let hasLiveSports := shouldCheckSports && should_show_sports gameStates
  if priorityEnabled && cycleModes.contains "sports" && hasLiveSports then
    { target := "sports", cycleIndex := cycleIndex,
      timeSinceSwitch := timeSinceSwitch }
  else if cycleSeconds ≤ timeSinceSwitch then
    let idx := (cycleIndex + 1) % cycleModes.length
    { target := (cycleModes.getD idx ""), cycleIndex := idx, timeSinceSwitch := 0 }
  else
    { target := (cycleModes.getD cycleIndex ""), cycleIndex := cycleIndex,
      timeSinceSwitch := timeSinceSwitch }

/-! Adapter metadata (`get_info`)

Embeds `BLEDisplayAdapter.get_info` of `src/adapters/ipixel/adapter.py`.
Python resolves a bare name in a method body against the defining module
global namespace (after locals) and the builtins; `ipixelAdapterGlobals`
lists every name bound at module level in that file (its imports and
top-level definitions).  The dict literal in `get_info` reads the bare
names `DISPLAY_WIDTH` and `DISPLAY_HEIGHT`, so building it requires both
lookups to succeed. -/

def ipixelAdapterGlobals : List String :=
  ["asyncio", "logging", "Optional", "List", "BleakClient", "Image",
   "DisplayAdapter", "ConnectionError", "UploadError", "logger",
   "MultiPanelClient", "_get_panel_addresses", "set_panel_dimensions",
   "clear_screen_completely", "init_panels", "upload_png", "upload_gif",
   "led_on", "led_off", "BLEDisplayAdapter"]

def lookupGlobal (scope : List String) (n : String) : Except String Unit :=
  if scope.contains n then .ok () else .error ("NameError: name " ++ n ++ " is not defined")

/-- Metadata dictionary returned by `get_info` (the fields whose values do
not depend on the unresolved names). -/
structure AdapterInfo where
  adapter_type : String
  device_count : Nat
  panel_width : Nat
  panel_height : Nat
deriving Repr, DecidableEq

/-- Embeds `get_info` of the ipixel adapter, for any adapter state (the panel
dimensions `DISPLAY_WIDTH`/`DISPLAY_HEIGHT` would populate
`panel_width`/`panel_height` if their lookups succeeded). -/
def ipixel_get_info : Except String AdapterInfo := do
  let _ ← lookupGlobal ipixelAdapterGlobals "DISPLAY_WIDTH"
  let _ ← lookupGlobal ipixelAdapterGlobals "DISPLAY_HEIGHT"
  .ok { adapter_type := "ipixel", device_count := 2,
        panel_width := 0, panel_height := 0 }

/-! Helper lemmas about the chunker -/

theorem chunks_nil (m : Nat) : chunks m ([] : List α) = [] := by
  rw [chunks]

theorem chunks_cons (m : Nat) (hm : m ≠ 0) (a : α) (t : List α) :
    chunks m (a :: t) = ((a :: t).take m) :: chunks m ((a :: t).drop m) := by
  rw [chunks]
  simp [hm]

theorem chunks_ne_nil (m : Nat) (hm : m ≠ 0) (l : List α) (hl : l ≠ []) :
    chunks m l ≠ [] := by
  cases l with
  | nil => exact absurd rfl hl
  | cons a t =>
    rw [chunks_cons m hm]
    exact List.cons_ne_nil _ _

theorem flatten_chunks (m : Nat) (hm : m ≠ 0) (l : List α) :
    (chunks m l).flatten = l := by
  induction l using chunks.induct m with
  | case1 => rw [chunks_nil]; rfl
  | case2 a t h => exact absurd h hm
  | case3 a t h ih =>
    rw [chunks_cons m hm, List.flatten_cons, ih, List.take_append_drop]

theorem chunks_dropLast_length (m : Nat) (hm : m ≠ 0) (l : List α) :
    ∀ c ∈ (chunks m l).dropLast, c.length = m := by
  induction l using chunks.induct m with
  | case1 => rw [chunks_nil]; intro c hc; cases hc
  | case2 a t h => exact absurd h hm
  | case3 a t h ih =>
    rw [chunks_cons m hm]
    intro c hc
    rcases hrest : chunks m ((a :: t).drop m) with _ | ⟨r, rs⟩
    · rw [hrest] at hc
      cases hc
    · rw [hrest, List.dropLast_cons₂] at hc
      rcases List.mem_cons.mp hc with hc | hc
      · subst hc
        have hdrop : (a :: t).drop m ≠ [] := by
          intro hnil
          rw [hnil, chunks_nil] at hrest
          cases hrest
        have hlen : m < (a :: t).length := by
          by_contra hle
          push_neg at hle
          exact hdrop (List.drop_eq_nil_of_le hle)
        simp only [List.length_take]
        omega
      · rw [hrest] at ih
        exact ih c hc

theorem chunks_uniform_of_dvd (m : Nat) (hm : m ≠ 0) (l : List α)
    (hd : m ∣ l.length) : ∀ c ∈ chunks m l, c.length = m := by
  induction l using chunks.induct m with
  | case1 => rw [chunks_nil]; intro c hc; cases hc
  | case2 a t h => exact absurd h hm
  | case3 a t h ih =>
    rw [chunks_cons m hm]
    intro c hc
    have hle : m ≤ (a :: t).length := by
      rcases hd with ⟨k, hk⟩
      rcases k with _ | k
      · simp at hk
      · rw [hk]
        calc m = m * 1 := (Nat.mul_one m).symm
        _ ≤ m * (k + 1) := Nat.mul_le_mul_left m (Nat.le_add_left 1 k)
    rcases List.mem_cons.mp hc with hc | hc
    · subst hc
      simp only [List.length_take]
      omega
    · have hd2 : m ∣ ((a :: t).drop m).length := by
        simp only [List.length_drop]
        exact Nat.dvd_sub' hd (Nat.dvd_refl m)
      exact ih hd2 c hc

theorem flatten_length_uniform (k : Nat) (cs : List (List α))
    (h : ∀ c ∈ cs, c.length = k) : cs.flatten.length = k * cs.length := by
  induction cs with
  | nil => simp
  | cons c cs ih =>
    simp only [List.flatten_cons, List.length_append, List.length_cons]
    rw [h c (List.mem_cons_self c cs), ih (fun d hd => h d (List.mem_cons_of_mem c hd))]
    ring

theorem chunks_flatten_uniform (m : Nat) (hm : m ≠ 0) (cs : List (List α))
    (h : ∀ c ∈ cs, c.length = m) : chunks m cs.flatten = cs := by
  induction cs with
  | nil => simp [chunks_nil]
  | cons c cs ih =>
    have hc : c.length = m := h c (List.mem_cons_self c cs)
    have hcne : c ≠ [] := by
      intro hnil
      rw [hnil] at hc
      exact hm hc.symm
    rcases c with _ | ⟨x, xs⟩
    · exact absurd rfl hcne
    · simp only [List.flatten_cons, List.cons_append]
      rw [chunks_cons m hm]
      have htake : ((x :: xs) ++ cs.flatten).take m = x :: xs := by
        rw [← hc, List.take_left]
      have hdrop : ((x :: xs) ++ cs.flatten).drop m = cs.flatten := by
        rw [← hc, List.drop_left]
      rw [show (x :: (xs ++ cs.flatten)).take m = ((x :: xs) ++ cs.flatten).take m from rfl,
        show (x :: (xs ++ cs.flatten)).drop m = ((x :: xs) ++ cs.flatten).drop m from rfl,
        htake, hdrop, ih (fun d hd => h d (List.mem_cons_of_mem _ hd))]

/-! Helper lemmas about byte decomposition and the still-image packet -/

theorem decodeLE_two (t : Nat) :
    decodeLE [t &&& 255, (t >>> 8) &&& 255] = t % 65536 := by
  simp only [decodeLE, Nat.and_pow_two_sub_one_eq_mod _ 8, Nat.shiftRight_eq_div_pow]
  omega

theorem decodeLE_four (t : Nat) :
    decodeLE [t &&& 255, (t >>> 8) &&& 255, (t >>> 16) &&& 255, (t >>> 24) &&& 255] =
      t % 4294967296 := by
  simp only [decodeLE, Nat.and_pow_two_sub_one_eq_mod _ 8, Nat.shiftRight_eq_div_pow]
  omega

theorem create_png_packet_take2 (p : List Nat) :
    (create_png_packet p).take 2 =
      [(p.length + 15) &&& 255, ((p.length + 15) >>> 8) &&& 255] := rfl

theorem create_png_packet_command (p : List Nat) :
    ((create_png_packet p).drop 2).take 2 = [2, 0] := rfl

theorem create_png_packet_reserved (p : List Nat) :
    (create_png_packet p)[4]? = some 0 := rfl

theorem create_png_packet_lenfield (p : List Nat) :
    ((create_png_packet p).drop 5).take 4 =
      [p.length &&& 255, (p.length >>> 8) &&& 255,
       (p.length >>> 16) &&& 255, (p.length >>> 24) &&& 255] := rfl

theorem create_png_packet_crcfield (p : List Nat) :
    ((create_png_packet p).drop 9).take 4 =
      [(crc32 p &&& 0xFFFFFFFF) &&& 255,
       ((crc32 p &&& 0xFFFFFFFF) >>> 8) &&& 255,
       ((crc32 p &&& 0xFFFFFFFF) >>> 16) &&& 255,
       ((crc32 p &&& 0xFFFFFFFF) >>> 24) &&& 255] := rfl

theorem create_png_packet_flags (p : List Nat) :
    ((create_png_packet p).drop 13).take 2 = [0, 0x2F] := rfl

theorem create_png_packet_payload (p : List Nat) :
    (create_png_packet p).drop 15 = p := rfl

theorem create_png_packet_header_length (p : List Nat) :
    ((create_png_packet p).take 15).length = 15 := rfl

/-! Helper lemmas about the windowed GIF transfer -/

theorem gifWindows_nil (w idx : Nat) : gifWindows w [] idx = [] := by
  rw [gifWindows]

theorem gifWindows_cons (w : Nat) (hw : w ≠ 0) (a : Nat) (t : List Nat) (idx : Nat) :
    gifWindows w (a :: t) idx =
      { option := if idx = 0 then 0x00 else 0x02,
        serial := if idx = 0 then 0x01 else 0x65,
        payload := (a :: t).take w } ::
      gifWindows w ((a :: t).drop w) (idx + 1) := by
  rw [gifWindows]
  simp [hw]

theorem gifWindows_map_payload (w : Nat) (l : List Nat) (idx : Nat) :
    (gifWindows w l idx).map GifWindow.payload = chunks w l := by
  induction l, idx using gifWindows.induct w with
  | case1 idx => rw [gifWindows_nil, chunks_nil]; rfl
  | case2 a t idx h =>
    subst h
    rw [gifWindows, chunks]
    rfl
  | case3 a t idx h ih =>
    rw [gifWindows_cons w h, chunks_cons w h, List.map_cons, ih]

theorem gifWindows_get_bytes (w : Nat) (l : List Nat) (idx : Nat) :
    ∀ i (hi : i < (gifWindows w l idx).length),
      (gifWindows w l idx)[i].option = (if idx + i = 0 then 0x00 else 0x02) ∧
      (gifWindows w l idx)[i].serial = (if idx + i = 0 then 0x01 else 0x65) := by
  induction l, idx using gifWindows.induct w with
  | case1 idx =>
    intro i hi
    rw [gifWindows_nil] at hi
    cases hi
  | case2 a t idx h =>
    intro i hi
    subst h
    rw [gifWindows] at hi
    simp at hi
  | case3 a t idx h ih =>
    intro i hi
    rcases i with _ | i
    · simp [gifWindows_cons w h]
    · have hi2 : i < (gifWindows w ((a :: t).drop w) (idx + 1)).length := by
        have := hi
        rw [gifWindows_cons w h] at this
        simpa using this
      have hrec := ih i hi2
      have hidx : idx + 1 + i = idx + (i + 1) := by omega
      rw [hidx] at hrec
      have hne : idx + (i + 1) ≠ 0 := by omega
      simp only [gifWindows_cons w h, List.getElem_cons_succ]
      simpa [hne] using hrec

/-! Claim theorems -/

/-- Claim C1 as stated is false: it asserts that the still-image
total_length field (u16, little-endian) equals payload_length + 15 for
every payload, but for a 65521-byte PNG payload the stored field wraps to
(65521 + 15) mod 2^16 = 0, not 65536. -/
theorem claim_C1_counterexample :
    decodeLE ((create_png_packet (List.replicate 65521 0)).take 2) ≠ 65521 + 15 := by
  rw [create_png_packet_take2, List.length_replicate, decodeLE_two]
  decide

/-- Claim C1 (amended): the packet built by create_png_packet is a 15-byte
header followed by the PNG payload, with (little-endian) total_length:u16
equal to (payload_length + 15) mod 2^16, command:u16 = 0x0002, reserved
byte 0x00, payload_length:u32 equal to the payload byte length mod 2^32,
checksum:u32 equal to the CRC-32 of the payload masked to 32 bits, and
flags:u16 = 0x2F00. -/
theorem claim_C1_still_image_packet (p : List Nat) :
    (create_png_packet p).drop 15 = p ∧
    ((create_png_packet p).take 15).length = 15 ∧
    decodeLE ((create_png_packet p).take 2) = (p.length + 15) % 65536 ∧
    decodeLE (((create_png_packet p).drop 2).take 2) = 2 ∧
    (create_png_packet p)[4]? = some 0 ∧
    decodeLE (((create_png_packet p).drop 5).take 4) = p.length % 4294967296 ∧
    decodeLE (((create_png_packet p).drop 9).take 4) = crc32 p % 4294967296 ∧
    decodeLE (((create_png_packet p).drop 13).take 2) = 0x2F00 := by
  refine ⟨create_png_packet_payload p, create_png_packet_header_length p, ?_, ?_,
    create_png_packet_reserved p, ?_, ?_, ?_⟩
  · rw [create_png_packet_take2, decodeLE_two]
  · rw [create_png_packet_command]
    simp [decodeLE]
  · rw [create_png_packet_lenfield, decodeLE_four]
  · rw [create_png_packet_crcfield, decodeLE_four]
    simp only [Nat.and_pow_two_sub_one_eq_mod _ 32]
    omega
  · rw [create_png_packet_flags]
    simp [decodeLE]

/-- Claim C10: the still-image length fields are stored masked to their
field widths — total_length:u16 holds (payload_length + 15) mod 2^16 and
payload_length:u32 holds the payload byte length mod 2^32 — so for any
payload longer than 65520 bytes the total_length field wraps instead of
equalling payload_length + 15. -/
theorem claim_C10_masked_length_fields (p : List Nat) :
    decodeLE ((create_png_packet p).take 2) = (p.length + 15) % 65536 ∧
    decodeLE (((create_png_packet p).drop 5).take 4) = p.length % 4294967296 ∧
    (65520 < p.length → decodeLE ((create_png_packet p).take 2) ≠ p.length + 15) := by
  refine ⟨?_, ?_, ?_⟩
  · rw [create_png_packet_take2, decodeLE_two]
  · rw [create_png_packet_lenfield, decodeLE_four]
  · intro h
    rw [create_png_packet_take2, decodeLE_two]
    omega

/-- Witness for claim C10 at the concrete 65521-byte payload. -/
theorem claim_C10_witness :
    decodeLE ((create_png_packet (List.replicate 65521 (0 : Nat))).take 2) =
      ((List.replicate 65521 (0 : Nat)).length + 15) % 65536 ∧
    decodeLE (((create_png_packet (List.replicate 65521 (0 : Nat))).drop 5).take 4) =
      (List.replicate 65521 (0 : Nat)).length % 4294967296 ∧
    decodeLE ((create_png_packet (List.replicate 65521 (0 : Nat))).take 2) ≠
      (List.replicate 65521 (0 : Nat)).length + 15 := by
  obtain ⟨h1, h2, h3⟩ := claim_C10_masked_length_fields (List.replicate 65521 (0 : Nat))
  exact ⟨h1, h2, h3 (by rw [List.length_replicate]; omega)⟩

/-- Claim C2: concatenating the payload slices of all windows of the
windowed GIF transfer reconstructs the original animation byte stream,
window 0 carries option byte 0x00 and serial byte 0x01, and every
subsequent window carries option byte 0x02 and serial byte 0x65 (hence
differs from window 0). -/
theorem claim_C2_windowed_transfer (w : Nat) (hw : 0 < w) (gif : List Nat) :
    ((gifWindows w gif 0).map GifWindow.payload).flatten = gif ∧
    (gifWindows w gif 0).map (fun x => (x.option, x.serial)) =
      (List.range (gifWindows w gif 0).length).map
        (fun i => if i = 0 then ((0x00 : Nat), (0x01 : Nat)) else (0x02, 0x65)) := by
  constructor
  · rw [gifWindows_map_payload, flatten_chunks w (by omega)]
  · apply List.ext_getElem
    · simp
    · intro i h1 h2
      have hi : i < (gifWindows w gif 0).length := by simpa using h1
      have := gifWindows_get_bytes w gif 0 i hi
      simp only [Nat.zero_add] at this
      simp only [List.getElem_map, List.getElem_range]
      rcases Nat.eq_zero_or_pos i with hz | hp
      · subst hz
        simp only [if_pos rfl]
        rw [Prod.mk.injEq]
        simpa using this
      · have hne : i ≠ 0 := by omega
        simp only [if_neg hne]
        rw [Prod.mk.injEq]
        simpa [hne] using this

/-- Witness for claim C2: window size 3 over a 7-byte stream. -/
theorem claim_C2_witness :
    ((gifWindows 3 [1, 2, 3, 4, 5, 6, 7] 0).map GifWindow.payload).flatten =
      [1, 2, 3, 4, 5, 6, 7] ∧
    (gifWindows 3 [1, 2, 3, 4, 5, 6, 7] 0).map (fun x => (x.option, x.serial)) =
      (List.range (gifWindows 3 [1, 2, 3, 4, 5, 6, 7] 0).length).map
        (fun i => if i = 0 then ((0x00 : Nat), (0x01 : Nat)) else (0x02, 0x65)) :=
  claim_C2_windowed_transfer 3 (by decide) [1, 2, 3, 4, 5, 6, 7]

/-- Horizontal band cropped for panel i by the split branch of
upload_png: `image.crop((0, i*PANEL_HEIGHT, PANEL_WIDTH,
(i+1)*PANEL_HEIGHT))`. -/
def panelBand (img : Img) (panelW panelH i : Nat) : Img :=
  img.crop 0 (i * panelH) panelW ((i + 1) * panelH)

/-- Claim C3: for an image whose height equals the aggregate canvas height
(panel_height times panel count) uploaded with no explicit panel selector,
upload_png sends to each panel i exactly the crop of rows
[i*panel_height, (i+1)*panel_height), preceded by a prepare command on the
same panel, and each band is exactly panel_width by panel_height. -/
theorem claim_C3_split_upload (panelW panelH N : Nat) (img : Img)
    (hN : 0 < N) (hph : 0 < panelH) (hh : img.h = panelH * N) (hw : img.w = panelW) :
    upload_png panelW panelH N img none =
      .ok ((List.range N).map (fun i =>
        [Send.prepare i, Send.image i (panelBand img panelW panelH i)])).flatten ∧
    (List.range N).map (fun i =>
        ((panelBand img panelW panelH i).w, (panelBand img panelW panelH i).h)) =
      List.replicate N (panelW, panelH) := by
  constructor
  · rw [show upload_png panelW panelH N img none =
      (if img.h = panelH * N ∧ 1 < (List.range N).length then
        .ok ((List.range N).map (fun i =>
          [Send.prepare i,
           Send.image i (img.crop 0 (i * panelH) panelW ((i + 1) * panelH))])).flatten
       else
        .ok ((List.range N).map (fun i => [Send.prepare i, Send.image i img])).flatten)
      from rfl]
    rcases Nat.lt_or_ge 1 N with h1 | h1
    · rw [if_pos ⟨hh, by simpa using h1⟩]
      rfl
    · have hN1 : N = 1 := by omega
      subst hN1
      rw [if_neg (by simp)]
      have hband : panelBand img panelW panelH 0 = img := by
        apply (Img.ext _ _ _).symm
        · simpa [panelBand, Img.crop] using hw
        · simp only [panelBand, Img.crop]
          omega
        · intro x y
          simp [panelBand, Img.crop]
      rw [show List.range 1 = [0] from rfl]
      simp [hband]
  · apply List.ext_getElem
    · simp
    · intro i h1 h2
      have hi : i < N := by simpa using h1
      simp only [List.getElem_map, List.getElem_range, List.getElem_replicate]
      rw [Prod.mk.injEq]
      constructor
      · simp [panelBand, Img.crop]
      · simp only [panelBand, Img.crop]
        rw [Nat.succ_mul, Nat.add_sub_cancel_left]

/-- Witness for claim C3: two 64 by 20 panels, a 64 by 40 all-black image,
no panel selector. -/
theorem claim_C3_witness :
    upload_png 64 20 2 ⟨64, 40, fun _ _ => (0, 0, 0)⟩ none =
      .ok ((List.range 2).map (fun i =>
        [Send.prepare i,
         Send.image i (panelBand ⟨64, 40, fun _ _ => (0, 0, 0)⟩ 64 20 i)])).flatten ∧
    (List.range 2).map (fun i =>
        ((panelBand ⟨64, 40, fun _ _ => (0, 0, 0)⟩ 64 20 i).w,
         (panelBand ⟨64, 40, fun _ _ => (0, 0, 0)⟩ 64 20 i).h)) =
      List.replicate 2 (64, 20) :=
  claim_C3_split_upload 64 20 2 ⟨64, 40, fun _ _ => (0, 0, 0)⟩
    (by decide) (by decide) rfl rfl

/-- Claim C4 is violated by the code: a broadcast command through
write_cmd with a multi-panel client is written only to panel 0 and panel
1.  For a three-panel group the SCREEN_ON bytes never reach panel 2, and
for a one-panel group the call raises (AttributeError on bottom_client)
after writing panel 0. -/
theorem claim_C4_broadcast_gap :
    write_cmd_multi 3 none none [5, 0, 7, 1, 1] =
      ([(0, [5, 0, 7, 1, 1]), (1, [5, 0, 7, 1, 1])], false) ∧
    ((write_cmd_multi 3 none none [5, 0, 7, 1, 1]).1.map Prod.fst = [0, 1]) ∧
    (write_cmd_multi 1 none none [5, 0, 7, 1, 1]).2 = true := by
  have hch : chunks 512 [5, 0, 7, 1, 1] = [[5, 0, 7, 1, 1]] := by
    rw [chunks_cons 512 (by decide), List.take_of_length_le (by decide),
      List.drop_eq_nil_of_le (by decide), chunks_nil]
  refine ⟨?_, ?_, ?_⟩
  · show ((chunks 512 [5, 0, 7, 1, 1]).map _ ++ (chunks 512 [5, 0, 7, 1, 1]).map _, false) = _
    rw [hch]
    rfl
  · show ((chunks 512 [5, 0, 7, 1, 1]).map _ ++ (chunks 512 [5, 0, 7, 1, 1]).map _).map Prod.fst = _
    rw [hch]
    rfl
  · rfl

/-- Claim C5: for every buffer and every chunk size m > 0, concatenating
the chunks reconstructs the buffer, every chunk except possibly the last
has length exactly m, and on MTU-query failure write_cmd_single falls back
to chunk size 512. -/
theorem claim_C5_chunking (b : List Nat) (m : Nat) (hm : 0 < m) :
    (chunks m b).flatten = b ∧
    (chunks m b).dropLast.map List.length =
      List.replicate (chunks m b).dropLast.length m ∧
    write_cmd_single none b = chunks 512 b := by
  refine ⟨flatten_chunks m (by omega) b, ?_, rfl⟩
  apply List.eq_replicate_iff.mpr
  constructor
  · rw [List.length_map]
  · intro x hx
    rcases List.mem_map.mp hx with ⟨c, hc, hcx⟩
    rw [← hcx]
    exact chunks_dropLast_length m (by omega) b c hc

/-- Witness for claim C5 at a concrete buffer and chunk size 2. -/
theorem claim_C5_witness :
    (chunks 2 [1, 2, 3, 4, 5]).flatten = [1, 2, 3, 4, 5] ∧
    (chunks 2 [1, 2, 3, 4, 5]).dropLast.map List.length =
      List.replicate (chunks 2 [1, 2, 3, 4, 5]).dropLast.length 2 ∧
    write_cmd_single none [1, 2, 3, 4, 5] = chunks 512 [1, 2, 3, 4, 5] :=
  claim_C5_chunking [1, 2, 3, 4, 5] 2 (by decide)

/-- Claim C6: for every hex string of even length, switch_endian is an
involution, and on every odd-length hex string switch_endian errors
instead of returning a value. -/
theorem claim_C6_switch_endian_involution (s : List Char) :
    (s.length % 2 = 0 → (switch_endian s).bind switch_endian = some s) ∧
    (s.length % 2 = 1 → switch_endian s = none) := by
  constructor
  · intro he
    have h2 : (2 : Nat) ≠ 0 := by decide
    have hcs : ∀ c ∈ (chunks 2 s).reverse, c.length = 2 := by
      intro c hc
      exact chunks_uniform_of_dvd 2 h2 s (Nat.dvd_of_mod_eq_zero he) c
        (List.mem_reverse.mp hc)
    have hlen : ((chunks 2 s).reverse.flatten).length =
        2 * (chunks 2 s).reverse.length :=
      flatten_length_uniform 2 _ hcs
    rw [show switch_endian s = some ((chunks 2 s).reverse.flatten) from by
      unfold switch_endian
      rw [if_neg (by omega)]]
    rw [Option.some_bind]
    unfold switch_endian
    rw [if_neg (by omega)]
    rw [chunks_flatten_uniform 2 h2 _ hcs, List.reverse_reverse,
      flatten_chunks 2 h2 s]
  · intro ho
    unfold switch_endian
    rw [if_pos (by omega)]

/-- Witness for claim C6: an even-length and an odd-length hex string. -/
theorem claim_C6_witness :
    ((switch_endian ['a', 'b', 'c', 'd']).bind switch_endian =
      some ['a', 'b', 'c', 'd']) ∧
    (switch_endian ['a', 'b', 'c'] = none) :=
  ⟨(claim_C6_switch_endian_involution ['a', 'b', 'c', 'd']).1 (by decide),
   (claim_C6_switch_endian_involution ['a', 'b', 'c']).2 (by decide)⟩

/-- Claim C7: on any tick on which sports priority holds (priority
enabled, sports configured in the cycle, live game detected), the chosen
target mode is sports, regardless of the cycle timer state
(time-since-switch, cycle duration and cycle index are arbitrary). -/
theorem claim_C7_priority_selection (priorityEnabled : Bool)
    (cycleModes gameStates : List String) (t cs idx : Nat)
    (hp : priorityEnabled = true) (hm : cycleModes.contains "sports" = true)
    (hl : should_show_sports gameStates = true) :
    (chooseTarget priorityEnabled cycleModes gameStates t cs idx).target = "sports" := by
  unfold chooseTarget
  rw [hp, hm, hl]
  simp

/-- Witness for claim C7: live game, timer far past the cycle duration. -/
theorem claim_C7_witness :
    (chooseTarget true ["clock", "sports"] ["in"] 999 10 0).target = "sports" :=
  claim_C7_priority_selection true ["clock", "sports"] ["in"] 999 10 0
    rfl (by decide) (by decide)

/-- Claim C8 is violated by the code: get_info of the ipixel adapter reads
the module-level names DISPLAY_WIDTH and DISPLAY_HEIGHT, neither of which
is imported or defined in src/adapters/ipixel/adapter.py, so every call
raises NameError instead of returning the metadata dictionary. -/
theorem claim_C8_get_info_raises :
    ipixel_get_info =
      Except.error "NameError: name DISPLAY_WIDTH is not defined" := by
  rfl

/-- Claim C9 as stated is false: the fallback prefix computed in the
windowed transfer for a 13-byte frame is the 2-byte value
[0x00, 0x0F], not a 4-byte prefix. -/
theorem claim_C9_counterexample :
    (fallback_length_bytes (List.replicate 13 0)).map List.length ≠ some 4 := by
  decide

/-- Claim C9 (amended): when the hex-based prefix computation fails, the
fallback prefix prepended to the frame is the 2-byte big-endian encoding
of (frame length + 2). -/
theorem claim_C9_fallback_two_bytes (frame : List Nat)
    (h : frame.length + 2 < 65536) :
    fallback_length_bytes frame =
      some [(frame.length + 2) / 256, (frame.length + 2) % 256] ∧
    256 * ((frame.length + 2) / 256) + (frame.length + 2) % 256 =
      frame.length + 2 := by
  constructor
  · unfold fallback_length_bytes int_to_bytes_be
    rw [if_pos (by simpa using h)]
    rw [show int_to_bytes_be.beBytes 2 (frame.length + 2) =
      [(frame.length + 2) / 256 % 256, (frame.length + 2) % 256] from rfl]
    have hdiv : (frame.length + 2) / 256 < 256 := by omega
    rw [Nat.mod_eq_of_lt hdiv]
  · exact Nat.div_add_mod (frame.length + 2) 256

/-- Witness for claim C9 at a concrete 300-byte frame. -/
theorem claim_C9_witness :
    fallback_length_bytes (List.replicate 300 (7 : Nat)) =
      some [((List.replicate 300 (7 : Nat)).length + 2) / 256,
            ((List.replicate 300 (7 : Nat)).length + 2) % 256] ∧
    256 * (((List.replicate 300 (7 : Nat)).length + 2) / 256) +
        ((List.replicate 300 (7 : Nat)).length + 2) % 256 =
      (List.replicate 300 (7 : Nat)).length + 2 :=
  claim_C9_fallback_two_bytes (List.replicate 300 (7 : Nat))
    (by rw [List.length_replicate]; omega)

end LedLive
